import Mathlib

/-!
Shallow embedding of the HexBug behaviour class (`code/robotling/hexbug.py`)
together with the configuration constants it reads from
`code/robotling/hexbug_config.py`.  Machine floats are modelled as rationals
(all values appearing in the embedded computations are exactly representable),
Python ints as `ℤ`/`ℕ`, and the robot object's mutable attributes as an
explicit state record threaded through the operations.  Timed waits
(`spin_ms`) and actuator commands are recorded as explicit events where a
claim talks about them.
-/

/- Configuration constants (`hexbug_config.py`, user section). -/

def PIRO_MAX_ANGLE : ℚ := 25

def IR_SCAN_POS : List ℚ := [-300, 300, 300, -300]

def IR_SCAN_POS_DEG : List ℤ := [-35, 0, 35, 0]

def IR_SCAN_BIAS_F : ℚ := 0

def DIST_OBST_CM : ℤ := 9

def DIST_CLIFF_CM : ℤ := 25

def SCAN_DIST_SERVO : ℤ := -25

def MIN_DIST_SERVO : ℤ := 45

def MAX_DIST_SERVO : ℤ := -45

def SPEED_SCAN : ℤ := 40

def SPEED_TURN : ℤ := 35

def SPEED_BACK_DELAY : ℤ := 600

def HEAD_ADJUST_FACT : ℚ := -1

def HEAD_ADJUST_THR : ℚ := 5

def MEM_INC : ℤ := 1

def STATE_IDLE : ℤ := 0

def STATE_WALKING : ℤ := 1

def STATE_LOOKING : ℤ := 2

def STATE_ON_HOLD : ℤ := 3

/-- The per-build behaviour switches `DO_FIND_LIGHT` and `DO_WALK_STRAIGHT`
(`hexbug_config.py` lines 89 and 95).  They are compile-time constants in the
source; the embedding keeps them as parameters so that statements about
enabled behaviours can be made (the shipped configuration has both `0`). -/
structure Cfg where
  doFindLight : Bool
  doWalkStraight : Bool

/-- Modelled from the spec: `TemporalFilter` (from `misc/helpers.py`, which is
not among the provided sources).  Spec §4.1: constructed with a fixed window
length `N ≥ 1`; pushing a value inserts it, evicts the oldest once the window
is full, and returns the arithmetic mean of the currently held values (no
zero-padding while the window is not yet full). -/
structure TemporalFilter where
  window : ℕ
  vals : List ℚ

/-- Modelled from the spec: one `mean`/push step of `TemporalFilter`; returns
the updated filter and the smoothed mean. -/
def TemporalFilter.push (f : TemporalFilter) (x : ℚ) : TemporalFilter × ℚ :=
  let vs0 := f.vals ++ [x]
  let vs := if f.window < vs0.length then vs0.drop (vs0.length - f.window) else vs0
  (⟨f.window, vs⟩, vs.sum / (vs.length : ℚ))

/-- The HexBug object state: the attributes of `HexBug` that the embedded
operations read or write.  `servoOn` models whether `ServoRangingSensor` is
powered (`off()` clears it), `servoAngle` its commanded angle.
`cpsTargetHead` is the attribute set in `__init__` (line 168) and read by
`scanForObstacleOrCliff` (line 287); `targetHead` models the separate
attribute `_targetHead` that `lookAround` assigns (line 377), absent (`none`)
until that assignment happens. -/
structure HB where
  motorWalk : ℤ
  motorTurn : ℤ
  servoAngle : ℤ
  servoOn : Bool
  state : ℤ
  onHold : Bool
  pitchFilter : TemporalFilter
  rollFilter : TemporalFilter
  currHead : ℚ
  cpsTargetHead : ℚ
  targetHead : Option ℚ
  turnStats : ℤ

/-- A fresh HexBug state as left by `__init__` (only the fields the claims
touch; `cpsTargetHead` would be the construction-time compass heading, here 0). -/
def hb0 : HB :=
  { motorWalk := 0, motorTurn := 0, servoAngle := SCAN_DIST_SERVO, servoOn := true,
    state := STATE_IDLE, onHold := false,
    pitchFilter := ⟨8, []⟩, rollFilter := ⟨8, []⟩,
    currHead := 0, cpsTargetHead := 0, targetHead := none, turnStats := 0 }

/-- `hb0` with a pitch-filter history of three samples at 30°: pushing one
more 30° sample keeps the smoothed pitch at 30 > `PIRO_MAX_ANGLE`. -/
def hbTilt : HB := { hb0 with pitchFilter := ⟨8, [30, 30, 30]⟩ }

/-- `hb0` with a pitch-filter history of seven samples at 0°: pushing a raw
100° sample yields a smoothed pitch of 100/8 = 12.5 ≤ `PIRO_MAX_ANGLE`. -/
def hbCalm : HB := { hb0 with pitchFilter := ⟨8, List.replicate 7 0⟩ }

/-- `hexbug.py` lines 279-288: the `bias` variable as it stands after the
behaviour-dependent prologue of `scanForObstacleOrCliff`.  Note that the
`DO_WALK_STRAIGHT` branch of the source assigns its heading correction to the
local `tb` (line 288) which is never read again, so `bias` keeps its initial
value `0` there. -/
def scanBias (cfg : Cfg) (lightDiff currHead cpsTargetHead : ℚ) : ℚ :=
  if cfg.doFindLight then -lightDiff
  else 0

/-- `hexbug.py` lines 287-288: the value `tb` computed (and then discarded)
in the `DO_WALK_STRAIGHT` branch of `scanForObstacleOrCliff`:
`dh * HEAD_ADJUST_FACT` when `|dh| > HEAD_ADJUST_THR`, else `0`, where
`dh = currHead - cpsTargetHead`. -/
def scanHeadAdjust (currHead cpsTargetHead : ℚ) : ℚ :=
  let dh := currHead - cpsTargetHead
  if HEAD_ADJUST_THR < |dh| then dh * HEAD_ADJUST_FACT else 0

/-- Python's `l.index(pos)` as realised by the inner
`for j in range(len(l)): if l[j] == pos: ... break` loop
(`hexbug.py` lines 134-137): index of the first occurrence. -/
def findIdx0 (pos : ℤ) : List ℤ → ℕ
  | [] => 0
  | x :: xs => if x = pos then 0 else findIdx0 pos xs + 1

/-- `hexbug.py` lines 128-137: the loop over `IR_SCAN_POS_DEG` that builds
the list `l` of distinct angular positions and fills the preallocated
`_iScanPos` map (`m`).  A write `_iScanPos[iPos] = …` with `iPos` out of
range raises `IndexError` in Python; this is the only way construction can
fail here, modelled by `none`. -/
def scanIndexLoop : List ℤ → ℕ → List ℤ → List ℕ → Option (List ℤ × List ℕ)
  | [], _, l, m => some (l, m)
  | pos :: rest, i, l, m =>
    if i < m.length then
      if i = 0 ∨ pos ∉ l then
        scanIndexLoop rest (i + 1) (l ++ [pos]) (m.set i i)
      else
        scanIndexLoop rest (i + 1) l (m.set i (findIdx0 pos l))
    else none

/-- `hexbug.py` lines 117 and 126-140: starting from
`_iScanPos = [0] * len(IR_SCAN_POS)`, run the index-building loop; on
success the distance profile `_distData` is dimensioned with one slot per
entry of the resulting distinct list `l`. -/
def hexbugScanIndexInit (scanPos : List ℚ) (degs : List ℤ) :
    Option (List ℤ × List ℕ) :=
  scanIndexLoop degs 0 [] (List.replicate scanPos.length 0)

/-- `hexbug.py` lines 122-124: the in-place bias scaling of the scan-position
list: each entry `pos` is multiplied by `1 + IR_SCAN_BIAS_F` if `pos > 0`,
else by `1 - IR_SCAN_BIAS_F`. -/
def scanBiasScale (F : ℚ) : List ℚ → List ℚ
  | [] => []
  | p :: ps => (p * (if 0 < p then 1 + F else 1 - F)) :: scanBiasScale F ps

/-- `hexbug.py` lines 116-124: `_scanPos = IR_SCAN_POS` aliases the
module-level configuration list, and the scaling loop then mutates the shared
list in place.  The result is (module-level list after construction,
`_scanPos` of the new instance); by the aliasing both components are the same
list. -/
def hexbugInitScanPos (moduleScanPos : List ℚ) (F : ℚ) : List ℚ × List ℚ :=
  let scaled := scanBiasScale F moduleScanPos
  (scaled, scaled)

/-- Observable actuator/wait events issued by the scan code: setting the
turn-motor speed, a timed wait `spin_ms`, and a range reading stored into a
profile slot. -/
inductive Ev
  | setTurnSpeed (v : ℤ)
  | spin (ms : ℚ)
  | readStore (slot : ℕ) (d : ℤ)
deriving DecidableEq

/-- Result of the single-sensor sweep loop: the event trace, the obstacle and
cliff flags, and the final `_distData` contents. -/
structure SweepOut where
  trace : List Ev
  o : Bool
  c : Bool
  dist : List ℤ
deriving DecidableEq

/-- `hexbug.py` lines 297-309: the single-sensor sweep over the (scaled)
scan-position list.  The list argument zips each position with the range
reading the sensor will deliver at that stop and with its `_iScanPos` slot.
For each stop: set the turn motor, wait `|Pos| + b` where `b` is `0` except
at the last index (`i < last` ↔ `iPos < len(_scanPos) - 1`), stop the motor,
read the distance, store it, and fold the threshold flags with `or`. -/
def sweepLoop (bias : ℚ) (last : ℕ) :
    ℕ → List (ℚ × ℤ × ℕ) → Bool → Bool → List ℤ → SweepOut
  | _, [], o, c, dist => ⟨[], o, c, dist⟩
  | i, (p, d, s) :: rest, o, c, dist =>
    let b : ℚ := if i < last then 0 else bias
    let spd : ℤ := SPEED_SCAN * (if p < 0 then 1 else -1)
    let r := sweepLoop bias last (i + 1) rest
      (o || decide (d < DIST_OBST_CM)) (c || decide (DIST_CLIFF_CM < d))
      (dist.set s d)
    ⟨.setTurnSpeed spd :: .spin (|p| + b) :: .setTurnSpeed 0 ::
       .readStore s d :: r.trace, r.o, r.c, r.dist⟩

/-- Result of a whole `scanForObstacleOrCliff` cycle in single-sensor mode:
trace, flags, final profile, the remembered `_turnBias`, and the returned
classification (1 = cliff, -1 = obstacle, 0 = none). -/
structure ScanOut where
  trace : List Ev
  o : Bool
  c : Bool
  dist : List ℤ
  turnBias : ℚ
  result : ℤ
deriving DecidableEq

/-- `hexbug.py` lines 290-309 and 336-338: `scanForObstacleOrCliff` in
single-sensor mode (`nRangingSensor == 1`), over the scaled position list
`posL`, the slot map `iMap`, the per-stop sensor readings, and the
per-cycle `bias` from the prologue.  Returns trace, flags, profile, the
remembered `_turnBias = bias`, and `1 if c else -1 if o else 0`. -/
def scanSingle (posL : List ℚ) (iMap : List ℕ) (readings : List ℤ)
    (bias : ℚ) (dist0 : List ℤ) : ScanOut :=
  let z := posL.zip (readings.zip iMap)
  let r := sweepLoop bias (posL.length - 1) 0 z false false dist0
  ⟨r.trace, r.o, r.c, r.dist, bias, if r.c then 1 else if r.o then -1 else 0⟩

/-- The four events one sweep stop issues, as a function of the enumerated
zip entry `(iPos, (Pos, reading, slot))`: drive at `SPEED_SCAN` signed by
`Pos < 0` for `|Pos|` plus the bias when `iPos` is the last index, stop, and
store the reading at the mapped slot. -/
def sweepBlock (last : ℕ) (bias : ℚ) (e : ℕ × ℚ × ℤ × ℕ) : List Ev :=
  [.setTurnSpeed (SPEED_SCAN * (if e.2.1 < 0 then 1 else -1)),
   .spin (|e.2.1| + (if e.1 < last then 0 else bias)),
   .setTurnSpeed 0,
   .readStore e.2.2.2 e.2.2.1]

/-- Enumerate a list with indices starting at `i`. -/
def enumF (i : ℕ) : List α → List (ℕ × α)
  | [] => []
  | x :: xs => (i, x) :: enumF (i + 1) xs

/-- Concatenated image of a list-valued function. -/
def concatMap (f : α → List β) : List α → List β
  | [] => []
  | x :: xs => f x ++ concatMap f xs

/-- `hexbug.py` lines 323-334: the post-poll tail of the multi-sensor array
branch: drive the turn motor signed by `IR_SCAN_BIAS_F < 0` for
`td = |IR_SCAN_BIAS_F * 200| + bias`, stop, then if
`sd = SPEED_BACK_DELAY // 3 - td > 0` wait out the remainder `sd`. -/
def arrayScanPostPollEvents (bias f : ℚ) : List Ev :=
  let td := |f * 200| + bias
  let sd := ((SPEED_BACK_DELAY / 3 : ℤ) : ℚ) - td
  [Ev.setTurnSpeed (SPEED_SCAN * (if f < 0 then 1 else -1)),
   Ev.spin td, Ev.setTurnSpeed 0] ++ (if 0 < sd then [Ev.spin sd] else [])

/-- Total of all `spin_ms` durations in an event list. -/
def spinTime : List Ev → ℚ
  | [] => 0
  | Ev.spin t :: es => t + spinTime es
  | _ :: es => spinTime es

/-- The drive-plus-wait time the array-mode scan spends after polling:
the sum of the `spin_ms` durations of `arrayScanPostPollEvents`. -/
def arrayScanPostPollTime (bias f : ℚ) : ℚ :=
  spinTime (arrayScanPostPollEvents bias f)

/-- `hexbug.py` lines 264-272, `_nextTurnDir`: update `turnStats` by
`±MEM_INC` according to the sign of `lastTurnDir` (unchanged when it is 0),
then return a random direction (`[-1,1][randint(0,1)]`, here selected by the
boolean `r`) if the accumulator is zero, else its sign.  Returns the new
accumulator and the chosen direction. -/
def nextTurnDir (turnStats lastTurnDir : ℤ) (r : Bool) : ℤ × ℤ :=
  let ts := if ¬lastTurnDir = 0 then
      (if 0 < lastTurnDir then turnStats + MEM_INC else turnStats - MEM_INC)
    else turnStats
  (ts, if ts = 0 then (if r then 1 else -1) else (if 0 < ts then 1 else -1))

/-- `hexbug.py` lines 205-220, `housekeeper` (the parts that touch the
claim-relevant state; the load/light/telemetry/NeoPixel sections only write
other fields): push the fresh pitch and roll through their filters, set
`onHold` iff a smoothed magnitude exceeds `PIRO_MAX_ANGLE`, and when on hold
zero both motors, power the ranging servo off and force `STATE_ON_HOLD`;
finally save the heading. -/
def housekeeper (s : HB) (heading pitch roll : ℚ) : HB :=
  let pr := s.pitchFilter.push pitch
  let rr := s.rollFilter.push roll
  let hold := decide (PIRO_MAX_ANGLE < |pr.2|) || decide (PIRO_MAX_ANGLE < |rr.2|)
  let s1 := { s with pitchFilter := pr.1, rollFilter := rr.1, onHold := hold }
  let s2 := if hold then
      { s1 with motorTurn := 0, motorWalk := 0, servoOn := false,
                state := STATE_ON_HOLD }
    else s1
  { s2 with currHead := heading }

/-- One saccade's random draws in `lookAround` (`hexbug.py` lines 358-367):
the yaw delta, the pitch delta, and the trailing random pause. -/
structure Sacc where
  dYaw : ℤ
  dPit : ℤ
  pause : ℕ

/-- The first `k` state-changing steps of one saccade body
(`hexbug.py` lines 363-367): step 1 moves the servo to the clamped pitch,
step 2 drives the turn motor at `SPEED_TURN` signed by `dYaw`, step 3 is the
timed wait, step 4 stops the motor, step 5 the random pause.  `k < 5` models
an exception escaping after `k` steps. -/
def saccSteps (sc : Sacc) (pit : ℤ) (k : ℕ) (s : HB) : HB :=
  let s1 := if 0 < k then { s with servoAngle := pit } else s
  let s2 := if 1 < k then
      { s1 with motorTurn := SPEED_TURN * (if sc.dYaw < 0 then -1 else 1) }
    else s1
  if 3 < k then { s2 with motorTurn := 0 } else s2

/-- `hexbug.py` lines 355-367: the saccade loop of `lookAround`.  `holds i`
is the value of `self.onHold` (written concurrently by the housekeeping tick)
that iteration `i` observes; `exc = some (j, k)` models an exception raised
in iteration `j` after `k` steps, propagating out of the loop. -/
def lookLoop (holds : ℕ → Bool) (exc : Option (ℕ × ℕ)) :
    List Sacc → ℕ → ℤ → HB → HB
  | [], _, _, s => s
  | sc :: rest, i, pit, s =>
    if holds i then s
    else
      let pit2 := min (max 0 (pit + sc.dPit)) (max MAX_DIST_SERVO MIN_DIST_SERVO)
      match exc with
      | some (j, k) =>
        if j = i then saccSteps sc pit2 k s
        else lookLoop holds exc rest (i + 1) pit2 (saccSteps sc pit2 5 s)
      | none => lookLoop holds exc rest (i + 1) pit2 (saccSteps sc pit2 5 s)

/-- `hexbug.py` lines 340-377, `lookAround`: stop both motors, remember the
state, enter `STATE_LOOKING`, run the saccade loop (which may break on the
tilt interlock or be cut short by an exception), and in the `finally` block
stop the turn motor, return the servo to `SCAN_DIST_SERVO`, restore the
remembered state, and — when `DO_WALK_STRAIGHT and not DO_FIND_LIGHT` —
assign the current compass heading to `_targetHead` (line 377). -/
def lookAround (cfg : Cfg) (s0 : HB) (sacs : List Sacc) (holds : ℕ → Bool)
    (exc : Option (ℕ × ℕ)) (heading : ℚ) : HB :=
  let s1 := { s0 with motorWalk := 0, motorTurn := 0 }
  let prev := s0.state
  let s2 := { s1 with state := STATE_LOOKING }
  let s3 := lookLoop holds exc sacs 0 SCAN_DIST_SERVO s2
  let s4 := { s3 with motorTurn := 0, servoAngle := SCAN_DIST_SERVO, state := prev }
  if cfg.doWalkStraight && !cfg.doFindLight then
    { s4 with targetHead := some heading }
  else s4

/-! Helper lemmas about the embedded loops. -/

/-- The distinct list built by `scanIndexLoop` stays duplicate-free and ends
up holding exactly the angles already collected plus those of the remaining
input. -/
theorem scanIndexLoop_distinct (degs : List ℤ) :
    ∀ (i : ℕ) (l : List ℤ) (m : List ℕ) (l2 : List ℤ) (m2 : List ℕ),
      scanIndexLoop degs i l m = some (l2, m2) → l.Nodup → (i = 0 → l = []) →
      l2.Nodup ∧ l2.toFinset = l.toFinset ∪ degs.toFinset := by
  induction degs with
  | nil =>
    intro i l m l2 m2 h hnd _
    simp only [scanIndexLoop, Option.some.injEq, Prod.mk.injEq] at h
    obtain ⟨rfl, rfl⟩ := h
    simpa using hnd
  | cons pos rest ih =>
    intro i l m l2 m2 h hnd hi0
    simp only [scanIndexLoop] at h
    by_cases hb : i < m.length
    · rw [if_pos hb] at h
      by_cases hc : i = 0 ∨ pos ∉ l
      · rw [if_pos hc] at h
        have hnd2 : (l ++ [pos]).Nodup := by
          rcases hc with h0 | hno
          · rw [hi0 h0]; simp
          · simp [List.nodup_append, hnd, hno]
        obtain ⟨hn, hf⟩ := ih (i + 1) (l ++ [pos]) (m.set i i) l2 m2 h hnd2 (by simp)
        refine ⟨hn, ?_⟩
        rw [hf]
        ext x
        simp
        tauto
      · rw [if_neg hc] at h
        push_neg at hc
        obtain ⟨hne, hmem⟩ := hc
        obtain ⟨hn, hf⟩ :=
          ih (i + 1) l (m.set i (findIdx0 pos l)) l2 m2 h hnd (by simp)
        refine ⟨hn, ?_⟩
        rw [hf]
        ext x
        simp
        intro hx
        subst hx
        exact Or.inl hmem
    · rw [if_neg hb] at h
      exact absurd h (by simp)

/-- The obstacle flag produced by the sweep loop is the or of its initial
value with `reading < DIST_OBST_CM` over all remaining readings. -/
theorem sweepLoop_o_eq (bias : ℚ) (last : ℕ) :
    ∀ (z : List (ℚ × ℤ × ℕ)) (i : ℕ) (o c : Bool) (dist : List ℤ),
      (sweepLoop bias last i z o c dist).o =
        (o || z.any fun t => decide (t.2.1 < DIST_OBST_CM)) := by
  intro z
  induction z with
  | nil => intro i o c dist; simp [sweepLoop]
  | cons t rest ih =>
    intro i o c dist
    obtain ⟨p, d, s⟩ := t
    simp [sweepLoop, ih, Bool.or_assoc]

/-- The cliff flag produced by the sweep loop is the or of its initial value
with `reading > DIST_CLIFF_CM` over all remaining readings. -/
theorem sweepLoop_c_eq (bias : ℚ) (last : ℕ) :
    ∀ (z : List (ℚ × ℤ × ℕ)) (i : ℕ) (o c : Bool) (dist : List ℤ),
      (sweepLoop bias last i z o c dist).c =
        (c || z.any fun t => decide (DIST_CLIFF_CM < t.2.1)) := by
  intro z
  induction z with
  | nil => intro i o c dist; simp [sweepLoop]
  | cons t rest ih =>
    intro i o c dist
    obtain ⟨p, d, s⟩ := t
    simp [sweepLoop, ih, Bool.or_assoc]

/-- The sweep loop's event trace is the concatenation of one
`sweepBlock` per enumerated position. -/
theorem sweepLoop_trace_eq (bias : ℚ) (last : ℕ) :
    ∀ (z : List (ℚ × ℤ × ℕ)) (i : ℕ) (o c : Bool) (dist : List ℤ),
      (sweepLoop bias last i z o c dist).trace =
        concatMap (sweepBlock last bias) (enumF i z) := by
  intro z
  induction z with
  | nil => intro i o c dist; simp [sweepLoop, enumF, concatMap]
  | cons t rest ih =>
    intro i o c dist
    obtain ⟨p, d, s⟩ := t
    simp [sweepLoop, enumF, concatMap, sweepBlock, ih]

/-- `any` over the middle component of the zipped sweep input equals `any`
over the reading list, given matching lengths. -/
theorem zipAnyMid (f : ℤ → Bool) :
    ∀ (ps : List ℚ) (ds : List ℤ) (ss : List ℕ),
      ds.length = ps.length → ss.length = ps.length →
      ((ps.zip (ds.zip ss)).any fun t => f t.2.1) = ds.any f := by
  intro ps
  induction ps with
  | nil =>
    intro ds ss h1 _
    simp only [List.length_nil, List.length_eq_zero] at h1
    subst h1
    simp
  | cons p ps ih =>
    intro ds ss h1 h2
    cases ds with
    | nil => simp at h1
    | cons d ds =>
      cases ss with
      | nil => simp at h2
      | cons s ss =>
        simp only [List.length_cons, Nat.succ.injEq] at h1 h2
        simp [ih ds ss h1 h2]

/-! Claim theorems. -/

/-- Claim C1 (code bug evaluation): in `scanForObstacleOrCliff` with
`DO_WALK_STRAIGHT` enabled and `DO_FIND_LIGHT` disabled, the heading
correction is computed into the local `tb` (line 288) which is never read,
so the bias applied to the final head drive and remembered in `_turnBias`
is `0` even when the heading error exceeds the threshold: with
`currHead = 50` and `cpsTargetHead = 0` the dead local holds
`50 * HEAD_ADJUST_FACT = -50`, yet the cycle's bias and `_turnBias` are 0. -/
theorem scanBias_walkStraight_dead :
    scanBias ⟨false, true⟩ 0 50 0 = 0 ∧
    (scanSingle IR_SCAN_POS [0, 1, 2, 1] [15, 15, 15, 15]
        (scanBias ⟨false, true⟩ 0 50 0) (List.replicate 3 0)).turnBias = 0 ∧
    scanHeadAdjust 50 0 = -50 ∧ ((-50 : ℚ) ≠ 0) := by
  refine ⟨rfl, rfl, ?_, by norm_num⟩
  norm_num [scanHeadAdjust, HEAD_ADJUST_THR, HEAD_ADJUST_FACT]

/-- Claim C2 (counterexample): with angular positions `[0, 0, 35]` and a
length-matched position list, construction succeeds — no configuration
error — yet the index map is `[0, 0, 2]` while the distance profile has only
2 slots, so slot index 2 is out of range and the mismatch would first
surface as an `IndexError` inside `scanForObstacleOrCliff` at tick time. -/
theorem scanInit_accepts_invalid_slot :
    hexbugScanIndexInit [-300, 300, 300] [0, 0, 35] =
      some ([0, 35], [0, 0, 2]) ∧
    ¬(2 < ([0, 35] : List ℤ).length) := by
  constructor
  · rfl
  · decide

/-- Claim C2 (amended): whenever construction completes, the distance
profile has exactly one slot per distinct angular position — the distinct
list `l` that dimensions `_distData` has length equal to the number of
distinct entries of the configured angle list.  Construction performs no
further validation of the slot map (see the counterexample): an invalid
slot index is first detected at tick time, not at construction. -/
theorem scanInit_profile_slots (scanPos : List ℚ) (degs : List ℤ)
    (l : List ℤ) (m : List ℕ)
    (h : hexbugScanIndexInit scanPos degs = some (l, m)) :
    l.length = degs.toFinset.card := by
  obtain ⟨hn, hf⟩ :=
    scanIndexLoop_distinct degs 0 [] (List.replicate scanPos.length 0) l m h
      (by simp) (fun _ => rfl)
  have h2 : l.toFinset = degs.toFinset := by simpa using hf
  calc l.length = l.toFinset.card := (List.toFinset_card_of_nodup hn).symm
  _ = degs.toFinset.card := by rw [h2]

/-- Claim C2 witness: the shipped configuration yields the distinct list
`[-35, 0, 35]` and map `[0, 1, 2, 1]`; the profile has one slot per distinct
angle (3) and every map entry is a valid slot index. -/
theorem scanInit_profile_slots_witness :
    hexbugScanIndexInit IR_SCAN_POS IR_SCAN_POS_DEG =
      some ([-35, 0, 35], [0, 1, 2, 1]) ∧
    ([-35, 0, 35] : List ℤ).length = IR_SCAN_POS_DEG.toFinset.card ∧
    ([0, 1, 2, 1] : List ℕ).all (fun j => decide (j < 3)) = true :=
  ⟨rfl,
   scanInit_profile_slots IR_SCAN_POS IR_SCAN_POS_DEG [-35, 0, 35] [0, 1, 2, 1] rfl,
   by decide⟩

/-- Claim C3 (code bug evaluation): `lookAround` with heading-hold enabled
writes the fresh compass heading to `_targetHead` (line 377) — not to
`cpsTargetHead`, the attribute the next `scanForObstacleOrCliff` compares
against (line 287).  After a `lookAround` exiting with current heading 90,
`cpsTargetHead` still holds its construction-time value 0. -/
theorem lookAround_stale_cpsTargetHead :
    (lookAround ⟨false, true⟩ hb0 [⟨100, 5, 50⟩] (fun _ => false)
        none 90).cpsTargetHead = 0 ∧
    (lookAround ⟨false, true⟩ hb0 [⟨100, 5, 50⟩] (fun _ => false)
        none 90).targetHead = some 90 ∧
    ((0 : ℚ) ≠ 90) := by
  refine ⟨rfl, rfl, by norm_num⟩

/-- Claim C4: a scan cycle accumulates the obstacle flag as the or of
`reading < DIST_OBST_CM` and the cliff flag as the or of
`reading > DIST_CLIFF_CM` over all readings, and returns 1 (cliff) whenever
the cliff flag is set regardless of the obstacle flag, -1 (obstacle) only
when cliff is unset and obstacle set, else 0; on the shipped positions with
map `[0,1,2,1]`, readings `[5,20,20,20]` classify as obstacle (-1) and
`[15,30,15,15]` as cliff (1). -/
theorem scan_classification (posL : List ℚ) (iMap : List ℕ)
    (readings : List ℤ) (bias : ℚ) (dist0 : List ℤ)
    (hr : readings.length = posL.length) (hm : iMap.length = posL.length) :
    (scanSingle posL iMap readings bias dist0).o =
      (readings.any fun d => decide (d < DIST_OBST_CM)) ∧
    (scanSingle posL iMap readings bias dist0).c =
      (readings.any fun d => decide (DIST_CLIFF_CM < d)) ∧
    (scanSingle posL iMap readings bias dist0).result =
      (if (scanSingle posL iMap readings bias dist0).c then 1
       else if (scanSingle posL iMap readings bias dist0).o then -1 else 0) ∧
    (scanSingle IR_SCAN_POS [0, 1, 2, 1] [5, 20, 20, 20] 0
        (List.replicate 3 0)).result = -1 ∧
    (scanSingle IR_SCAN_POS [0, 1, 2, 1] [15, 30, 15, 15] 0
        (List.replicate 3 0)).result = 1 := by
  refine ⟨?_, ?_, rfl, by decide, by decide⟩
  · show (sweepLoop bias (posL.length - 1) 0
        (posL.zip (readings.zip iMap)) false false dist0).o = _
    rw [sweepLoop_o_eq]
    simp [zipAnyMid (fun d => decide (d < DIST_OBST_CM)) posL readings iMap hr hm]
  · show (sweepLoop bias (posL.length - 1) 0
        (posL.zip (readings.zip iMap)) false false dist0).c = _
    rw [sweepLoop_c_eq]
    simp [zipAnyMid (fun d => decide (DIST_CLIFF_CM < d)) posL readings iMap hr hm]

/-- Claim C4 witness: instantiation at the shipped scan positions and the
obstacle scenario readings `[5,20,20,20]`. -/
theorem scan_classification_witness :
    ([5, 20, 20, 20] : List ℤ).length = IR_SCAN_POS.length ∧
    ([0, 1, 2, 1] : List ℕ).length = IR_SCAN_POS.length ∧
    (scanSingle IR_SCAN_POS [0, 1, 2, 1] [5, 20, 20, 20] 0
        (List.replicate 3 0)).o =
      (([5, 20, 20, 20] : List ℤ).any fun d => decide (d < DIST_OBST_CM)) :=
  ⟨by decide, by decide,
   (scan_classification IR_SCAN_POS [0, 1, 2, 1] [5, 20, 20, 20] 0
      (List.replicate 3 0) (by decide) (by decide)).1⟩

/-- Claim C5 (counterexample): the post-poll drive-plus-wait time in array
mode is not one constant value independent of the per-cycle bias: with the
shipped `IR_SCAN_BIAS_F = 0`, a cycle with bias 300 spends 300 ms (the nudge
alone exceeds the pad threshold `SPEED_BACK_DELAY // 3 = 200`, so no padding
wait happens), while a cycle with bias 0 spends 200 ms. -/
theorem arrayScanTime_not_constant :
    arrayScanPostPollTime 300 IR_SCAN_BIAS_F = 300 ∧
    arrayScanPostPollTime 0 IR_SCAN_BIAS_F = 200 ∧
    ((300 : ℚ) ≠ 200) := by
  refine ⟨?_, ?_, by norm_num⟩ <;>
    norm_num [arrayScanPostPollTime, arrayScanPostPollEvents, spinTime,
      IR_SCAN_BIAS_F, SPEED_BACK_DELAY]

/-- Claim C5 (amended): the post-poll drive-plus-wait time equals
`max (|IR_SCAN_BIAS_F * 200| + bias) (SPEED_BACK_DELAY // 3)`: the padding
wait enforces `SPEED_BACK_DELAY // 3` as a constant minimum cycle tail, and
the total is independent of the bias exactly while the corrective nudge
duration stays within that minimum; larger biases lengthen the cycle. -/
theorem arrayScanPostPollTime_eq_max (bias f : ℚ) :
    arrayScanPostPollTime bias f =
      max (|f * 200| + bias) ((SPEED_BACK_DELAY / 3 : ℤ) : ℚ) := by
  by_cases h : (0 : ℚ) < ((SPEED_BACK_DELAY / 3 : ℤ) : ℚ) - (|f * 200| + bias)
  · rw [max_eq_right (by linarith)]
    simp only [arrayScanPostPollTime, arrayScanPostPollEvents, if_pos h]
    simp [spinTime]
  · rw [max_eq_left (by push_neg at h; linarith)]
    simp only [arrayScanPostPollTime, arrayScanPostPollEvents, if_neg h]
    simp [spinTime]

/-- Claim C6: on every exit path of `lookAround` — all saccades completed,
break on the tilt interlock before a saccade, or an exception mid-saccade —
the turn motor ends at speed 0, the scanning servo ends at the neutral scan
angle `SCAN_DIST_SERVO`, and the state saved on entry is restored (the
`finally` block runs unconditionally). -/
theorem lookAround_cleanup (cfg : Cfg) (s0 : HB) (sacs : List Sacc)
    (holds : ℕ → Bool) (exc : Option (ℕ × ℕ)) (heading : ℚ) :
    (lookAround cfg s0 sacs holds exc heading).motorTurn = 0 ∧
    (lookAround cfg s0 sacs holds exc heading).servoAngle = SCAN_DIST_SERVO ∧
    (lookAround cfg s0 sacs holds exc heading).state = s0.state := by
  unfold lookAround
  dsimp only
  split
  · exact ⟨rfl, rfl, rfl⟩
  · exact ⟨rfl, rfl, rfl⟩

/-- Claim C7: after every `housekeeper` tick, from any current state, the
interlock `onHold` equals (|smoothed pitch| > `PIRO_MAX_ANGLE` or
|smoothed roll| > `PIRO_MAX_ANGLE`) computed from the windowed filters, and
whenever it is set the tick has zeroed both motor speeds, powered the
ranging servo off and forced `STATE_ON_HOLD`.  The closing conjuncts show
the decision uses the smoothed value, not the raw sample: a raw 100° pitch
over a window of seven 0° samples leaves `onHold` false although
100 > `PIRO_MAX_ANGLE`. -/
theorem housekeeper_tilt_interlock (s : HB) (heading pitch roll : ℚ) :
    (housekeeper s heading pitch roll).onHold =
      (decide (PIRO_MAX_ANGLE < |(s.pitchFilter.push pitch).2|) ||
       decide (PIRO_MAX_ANGLE < |(s.rollFilter.push roll).2|)) ∧
    ((housekeeper s heading pitch roll).onHold = true →
      (housekeeper s heading pitch roll).motorTurn = 0 ∧
      (housekeeper s heading pitch roll).motorWalk = 0 ∧
      (housekeeper s heading pitch roll).servoOn = false ∧
      (housekeeper s heading pitch roll).state = STATE_ON_HOLD) ∧
    (housekeeper hbCalm 0 100 0).onHold = false ∧
    PIRO_MAX_ANGLE < (100 : ℚ) := by
  refine ⟨?_, ?_, ?_, by norm_num [PIRO_MAX_ANGLE]⟩
  · unfold housekeeper
    dsimp only
    split
    · rfl
    · rfl
  · by_cases hb : (decide (PIRO_MAX_ANGLE < |(s.pitchFilter.push pitch).2|) ||
        decide (PIRO_MAX_ANGLE < |(s.rollFilter.push roll).2|)) = true
    · intro _
      refine ⟨?_, ?_, ?_, ?_⟩ <;> (unfold housekeeper; dsimp only; rw [if_pos hb])
    · intro h
      exfalso
      apply hb
      unfold housekeeper at h
      dsimp only at h
      rwa [if_neg hb] at h
  · have habs : |((25 : ℚ) / 2)| = 25 / 2 := abs_of_pos (by norm_num)
    norm_num [housekeeper, hbCalm, hb0, TemporalFilter.push, PIRO_MAX_ANGLE,
      List.replicate, habs]

/-- Claim C7 witness: with a pitch-filter history of three 30° samples and a
fresh 30° pitch sample, the smoothed pitch is 30 > 25, so the tick sets the
interlock, zeroes the motors, powers the servo off and forces
`STATE_ON_HOLD`. -/
theorem housekeeper_tilt_interlock_witness :
    (housekeeper hbTilt 0 30 0).onHold = true ∧
    (housekeeper hbTilt 0 30 0).motorTurn = 0 ∧
    (housekeeper hbTilt 0 30 0).motorWalk = 0 ∧
    (housekeeper hbTilt 0 30 0).servoOn = false ∧
    (housekeeper hbTilt 0 30 0).state = STATE_ON_HOLD :=
  ⟨by norm_num [housekeeper, hbTilt, hb0, TemporalFilter.push, PIRO_MAX_ANGLE],
   ((housekeeper_tilt_interlock hbTilt 0 30 0).2.1
      (by norm_num [housekeeper, hbTilt, hb0, TemporalFilter.push,
        PIRO_MAX_ANGLE])).1,
   ((housekeeper_tilt_interlock hbTilt 0 30 0).2.1
      (by norm_num [housekeeper, hbTilt, hb0, TemporalFilter.push,
        PIRO_MAX_ANGLE])).2.1,
   ((housekeeper_tilt_interlock hbTilt 0 30 0).2.1
      (by norm_num [housekeeper, hbTilt, hb0, TemporalFilter.push,
        PIRO_MAX_ANGLE])).2.2.1,
   ((housekeeper_tilt_interlock hbTilt 0 30 0).2.1
      (by norm_num [housekeeper, hbTilt, hb0, TemporalFilter.push,
        PIRO_MAX_ANGLE])).2.2.2⟩

/-- Claim C8: `_nextTurnDir` adds `MEM_INC` to the accumulator when the last
turn direction was positive, subtracts it when negative, leaves it unchanged
when 0; the returned direction is always -1 or 1; and whenever the updated
accumulator is nonzero the result deterministically equals its sign — the
random draw matters only when the accumulator is exactly zero. -/
theorem nextTurnDir_spec (ts last : ℤ) (r : Bool)
    (h : last = -1 ∨ last = 0 ∨ last = 1) :
    (nextTurnDir ts last r).1 =
      ts + (if 0 < last then MEM_INC else if last < 0 then -MEM_INC else 0) ∧
    ((nextTurnDir ts last r).2 = -1 ∨ (nextTurnDir ts last r).2 = 1) ∧
    ((nextTurnDir ts last r).1 ≠ 0 →
      (nextTurnDir ts last r).2 =
        if 0 < (nextTurnDir ts last r).1 then 1 else -1) := by
  refine ⟨?_, ?_, ?_⟩
  · unfold nextTurnDir
    dsimp only
    by_cases h0 : last = 0
    · simp [h0]
    · by_cases hp : 0 < last
      · simp [h0, hp]
      · have hneg : last < 0 := by omega
        simp only [h0, hp, if_neg, if_pos, not_false_iff, ite_true, ite_false,
          hneg, if_true]
        ring
  · unfold nextTurnDir
    dsimp only
    repeat' split
    all_goals first
      | exact Or.inl rfl
      | exact Or.inr rfl
  · unfold nextTurnDir
    dsimp only
    intro hnz
    rw [if_neg hnz]

/-- Claim C8 witness: instantiation at accumulator 0 and last direction +1:
the accumulator becomes `0 + MEM_INC`. -/
theorem nextTurnDir_spec_witness :
    ((1 : ℤ) = -1 ∨ (1 : ℤ) = 0 ∨ (1 : ℤ) = 1) ∧
    (nextTurnDir 0 1 false).1 =
      0 + (if (0 : ℤ) < 1 then MEM_INC else if (1 : ℤ) < 0 then -MEM_INC else 0) :=
  ⟨by norm_num, (nextTurnDir_spec 0 1 false (by norm_num)).1⟩

/-- Claim C9: in single-sensor sweep mode the scan visits the configured
positions in order, and for each enumerated position emits exactly: drive
the turn actuator at magnitude `SPEED_SCAN` with direction given by the sign
of the position's drive duration, for `|drive duration|` ms plus the
per-cycle bias only at the last index, stop the actuator, then take one
reading and store it at the position's mapped profile slot. -/
theorem scanSingle_trace_spec (posL : List ℚ) (iMap : List ℕ)
    (readings : List ℤ) (bias : ℚ) (dist0 : List ℤ)
    (hr : readings.length = posL.length) (hm : iMap.length = posL.length) :
    (scanSingle posL iMap readings bias dist0).trace =
      concatMap (sweepBlock (posL.length - 1) bias)
        (enumF 0 (posL.zip (readings.zip iMap))) := by
  show (sweepLoop bias (posL.length - 1) 0
      (posL.zip (readings.zip iMap)) false false dist0).trace = _
  exact sweepLoop_trace_eq bias (posL.length - 1) _ 0 false false dist0

/-- Claim C9 witness: instantiation at the shipped scan positions, map
`[0,1,2,1]`, readings `[5,20,20,20]` and bias 7. -/
theorem scanSingle_trace_spec_witness :
    ([5, 20, 20, 20] : List ℤ).length = IR_SCAN_POS.length ∧
    ([0, 1, 2, 1] : List ℕ).length = IR_SCAN_POS.length ∧
    (scanSingle IR_SCAN_POS [0, 1, 2, 1] [5, 20, 20, 20] 7
        (List.replicate 3 0)).trace =
      concatMap (sweepBlock (IR_SCAN_POS.length - 1) 7)
        (enumF 0 (IR_SCAN_POS.zip (([5, 20, 20, 20] : List ℤ).zip
          [0, 1, 2, 1]))) :=
  ⟨by decide, by decide,
   scanSingle_trace_spec IR_SCAN_POS [0, 1, 2, 1] [5, 20, 20, 20] 7
     (List.replicate 3 0) (by decide) (by decide)⟩

/-- Claim C10: construction does not copy the configured scan-position list:
`_scanPos` and the module-level list are the same list after `__init__`, the
scaling multiplies each entry in place by `1 + F` (positive entries) or
`1 - F` (non-positive entries), so for any `IR_SCAN_BIAS_F = F ≠ 0` the
configuration list itself is changed by construction, and constructing a
second instance applies the scaling again on top of the already scaled list,
changing it once more. -/
theorem initScanPos_mutates_config (F : ℚ) (h : F ≠ 0) :
    (hexbugInitScanPos IR_SCAN_POS F).1 = (hexbugInitScanPos IR_SCAN_POS F).2 ∧
    (hexbugInitScanPos IR_SCAN_POS F).1 =
      IR_SCAN_POS.map (fun p => p * (if 0 < p then 1 + F else 1 - F)) ∧
    (hexbugInitScanPos IR_SCAN_POS F).1 ≠ IR_SCAN_POS ∧
    (hexbugInitScanPos (hexbugInitScanPos IR_SCAN_POS F).1 F).1 =
      scanBiasScale F (scanBiasScale F IR_SCAN_POS) ∧
    (hexbugInitScanPos (hexbugInitScanPos IR_SCAN_POS F).1 F).1 ≠
      (hexbugInitScanPos IR_SCAN_POS F).1 := by
  have h1 : scanBiasScale F IR_SCAN_POS =
      [-300 * (1 - F), 300 * (1 + F), 300 * (1 + F), -300 * (1 - F)] := by
    norm_num [scanBiasScale, IR_SCAN_POS]
  refine ⟨rfl, ?_, ?_, rfl, ?_⟩
  · show scanBiasScale F IR_SCAN_POS = _
    rw [h1]
    norm_num [IR_SCAN_POS]
  · show scanBiasScale F IR_SCAN_POS ≠ IR_SCAN_POS
    rw [h1, IR_SCAN_POS]
    intro heq
    simp only [List.cons.injEq, and_true] at heq
    obtain ⟨e0, -⟩ := heq
    exact h (by linarith)
  · show scanBiasScale F (scanBiasScale F IR_SCAN_POS) ≠ scanBiasScale F IR_SCAN_POS
    rw [h1]
    intro heq
    simp only [scanBiasScale, List.cons.injEq, and_true] at heq
    obtain ⟨e0, e1, -⟩ := heq
    by_cases hp : (0 : ℚ) < 300 * (1 + F)
    · rw [if_pos hp] at e1
      have hF1 : (1 + F) * F = 0 := by linear_combination (1 / (300 : ℚ)) * e1
      rcases mul_eq_zero.mp hF1 with hA | hB
      · linarith
      · exact h hB
    · rw [if_neg hp] at e1
      have hF1 : (1 + F) * F = 0 := by linear_combination (-1 / (300 : ℚ)) * e1
      rcases mul_eq_zero.mp hF1 with hA | hB
      · have hF : F = -1 := by linarith
        subst hF
        norm_num at e0
      · exact h hB

/-- Claim C10 witness: instantiation at the nonzero bias factor 1/10. -/
theorem initScanPos_mutates_config_witness :
    ((1 : ℚ) / 10 ≠ 0) ∧
    (hexbugInitScanPos IR_SCAN_POS (1 / 10)).1 ≠ IR_SCAN_POS :=
  ⟨by norm_num, (initScanPos_mutates_config (1 / 10) (by norm_num)).2.2.1⟩
